import Mathlib

/-!
Verification of the process core of the shell plugin
(`src/plugins/shell/src/process/mod.rs`).

The Rust module is shallowly embedded: pure builder methods become Lean
functions on a `Command` structure, the event-drain loops of `status()` and
`output()` become structural recursions over the list of events received on
the channel, the pipe-reader loop becomes a recursion over the sequence of
read outcomes, and the interaction between the two pipe-reader threads and
the process-supervisor thread (synchronised by the `RwLock` completion
guard) becomes a small-step transition relation on a system state.
Bytes are modelled as `Nat`, Rust `i32` exit codes as `Int`.
-/

namespace Shell

/-- The newline byte inserted by `output()` after each record
(`const NEWLINE_BYTE: u8 = b'\n'`, mod.rs line 21). -/
def NEWLINE_BYTE : Nat := 10

/-- Payload of the `Terminated` event (mod.rs lines 32-38):
exit code and, on unix, the terminating signal. -/
structure TerminatedPayload where
  code : Option Int
  signal : Option Int
deriving DecidableEq, Repr

/-- Event sent to the command callback (mod.rs lines 41-52). -/
inductive CommandEvent where
  | Stderr (bytes : List Nat)
  | Stdout (bytes : List Nat)
  | Error (message : String)
  | Terminated (payload : TerminatedPayload)
deriving DecidableEq, Repr

/-- True exactly on `Error` events (used to state that `output()` drops
them). -/
def CommandEvent.isError : CommandEvent → Bool
  | CommandEvent.Error _ => true
  | _ => false

/-- True exactly on `Terminated` events. -/
def CommandEvent.isTerminated : CommandEvent → Bool
  | CommandEvent.Terminated _ => true
  | _ => false

/-- The command builder (mod.rs lines 56-62).  The Rust `HashMap` of
environment overrides is modelled as an association list; `PathBuf` as a
string. -/
structure Command where
  program : String
  args : List String
  env_clear : Bool
  env : List (String × String)
  current_dir : Option String
deriving DecidableEq, Repr

/-- `Command::new` (mod.rs lines 150-158). -/
def Command.new (program : String) : Command :=
  { program := program
    args := []
    env_clear := false
    env := []
    current_dir := none }

/-- `Command::args` (mod.rs lines 166-175): pushes each argument onto the
existing argument vector, one at a time.  Named `appendArgs` because the
structure field is already called `args`. -/
def Command.appendArgs (cmd : Command) (xs : List String) : Command :=
  xs.foldl (fun c a => { c with args := c.args ++ [a] }) cmd

/-- `Command::envs` (mod.rs lines 186-189): `self.env = env`. -/
def Command.envs (cmd : Command) (env : List (String × String)) : Command :=
  { cmd with env := env }

/-- `Command::env_clear` (mod.rs lines 179-182). -/
def Command.envClear (cmd : Command) : Command :=
  { cmd with env_clear := true }

/-- `Command::current_dir` (mod.rs lines 193-196). -/
def Command.setCurrentDir (cmd : Command) (dir : String) : Command :=
  { cmd with current_dir := some dir }

/-- `ExitStatus` (mod.rs lines 92-94). -/
structure ExitStatus where
  code : Option Int
deriving DecidableEq, Repr

/-- `ExitStatus::success` (mod.rs lines 103-105): `self.code == Some(0)`. -/
def ExitStatus.success (s : ExitStatus) : Bool :=
  s.code == some 0

/-- `Output` (mod.rs lines 110-117). -/
structure Output where
  status : ExitStatus
  stdout : List Nat
  stderr : List Nat
deriving DecidableEq, Repr

/-- Separator test of the line splitter: a byte is a record separator when
it is `\n` (10) or `\r` (13). -/
def isSep (b : Nat) : Bool :=
  b == 10 || b == 13

/-- Modelled from the spec: `tauri::utils::io::read_line`, the Line
Splitter, is code of the tauri crate and is not under `src/`.  Per spec
§4.1 it produces the next record — the bytes up to and excluding the next
`\n` or `\r` — and reports how many bytes were consumed for that read step
(the separator included); it returns zero consumed bytes exactly on clean
end-of-stream, and bytes remaining at end-of-stream without a final
separator are returned as a final record.  The remaining stream is the
input with the consumed bytes dropped. -/
def read_line : List Nat → Nat × List Nat
  | [] => (0, [])
  | b :: rest =>
    if isSep b then (1, [])
    else ((read_line rest).1 + 1, b :: (read_line rest).2)

/-- One outcome of a read step as seen by the pipe-reader loop: either
`Ok(n)` with the record filled into `buf`, or an I/O error. -/
inductive ReadStep where
  | ok (n : Nat) (buf : List Nat)
  | ioerr (message : String)
deriving DecidableEq, Repr

/-- The loop body of `spawn_pipe_reader` (mod.rs lines 359-377), over the
sequence of read outcomes delivered by the line splitter: on `Ok(n)` with
`n == 0` it breaks; on `Ok(n)` with `n > 0` it sends `wrapper(buf)`; on
`Err(e)` it sends `Error(e)` and (the source has no `break` in that arm)
keeps looping. -/
def pipeReaderLoop (wrapper : List Nat → CommandEvent) :
    List ReadStep → List CommandEvent
  | [] => []
  | ReadStep.ok 0 _ :: _ => []
  | ReadStep.ok (_ + 1) buf :: rest =>
      wrapper buf :: pipeReaderLoop wrapper rest
  | ReadStep.ioerr m :: rest =>
      CommandEvent.Error m :: pipeReaderLoop wrapper rest

/-- The sequence of read outcomes obtained by repeatedly applying the line
splitter to an error-free byte stream: each step consumes
`(read_line s).1` bytes and yields the record `(read_line s).2`. -/
def stepsOf : List Nat → List ReadStep
  | [] => []
  | b :: rest =>
      ReadStep.ok (read_line (b :: rest)).1 (read_line (b :: rest)).2 ::
        stepsOf ((b :: rest).drop (read_line (b :: rest)).1)
termination_by s => s.length
decreasing_by
  simp only [List.length_drop]
  have h1 : 1 ≤ (read_line (b :: rest)).1 := by
    simp only [read_line]
    split
    · simp
    · simp
  simp only [List.length_cons]
  omega

/-- Specification-side record splitter: the separator-delimited records of
a byte stream, a record being a run of bytes up to and excluding the next
`\n` or `\r`; a final separator does not open a trailing empty record. -/
def splitRecords : List Nat → List (List Nat)
  | [] => []
  | b :: rest =>
    if isSep b then [] :: splitRecords rest
    else
      match splitRecords rest with
      | [] => [[b]]
      | r :: rs => (b :: r) :: rs

/-- Stdout payloads of an event list, in order. -/
def stdoutPayloads (es : List CommandEvent) : List (List Nat) :=
  es.filterMap fun e =>
    match e with
    | CommandEvent.Stdout l => some l
    | _ => none

/-- Stderr payloads of an event list, in order. -/
def stderrPayloads (es : List CommandEvent) : List (List Nat) :=
  es.filterMap fun e =>
    match e with
    | CommandEvent.Stderr l => some l
    | _ => none

/-- Exit codes carried by the `Terminated` events of an event list, in
order. -/
def termCodes (es : List CommandEvent) : List (Option Int) :=
  es.filterMap fun e =>
    match e with
    | CommandEvent.Terminated p => some p.code
    | _ => none

/-- The code retained after draining an event list: the code of the last
`Terminated` event, or `none` when no `Terminated` event occurs. -/
def lastTermCode (es : List CommandEvent) : Option Int :=
  (termCodes es).getLast?.getD none

/-- Concatenation of records, each followed by a single inserted newline
byte. -/
def lineConcat (ls : List (List Nat)) : List Nat :=
  (ls.map fun l => l ++ [NEWLINE_BYTE]).flatten

/-- The drain loop of `Command::status` (mod.rs lines 295-305): every
received event is inspected; a `Terminated` payload overwrites the
retained code, every other event is discarded. -/
def statusLoop (code : Option Int) : List CommandEvent → ExitStatus
  | [] => { code := code }
  | CommandEvent.Terminated p :: es => statusLoop p.code es
  | CommandEvent.Stdout _ :: es => statusLoop code es
  | CommandEvent.Stderr _ :: es => statusLoop code es
  | CommandEvent.Error _ :: es => statusLoop code es

/-- `Command::status` applied to the full event sequence received on the
channel, starting from `code = None`. -/
def statusDrain (es : List CommandEvent) : ExitStatus :=
  statusLoop none es

/-- The drain loop of `Command::output` (mod.rs lines 318-346): `Stdout`
records extend the stdout buffer followed by a pushed newline byte,
`Stderr` records likewise for stderr, `Terminated` overwrites the code,
`Error` events are ignored. -/
def outputLoop (code : Option Int) (out err : List Nat) :
    List CommandEvent → Output
  | [] => { status := { code := code }, stdout := out, stderr := err }
  | CommandEvent.Terminated p :: es => outputLoop p.code out err es
  | CommandEvent.Stdout l :: es =>
      outputLoop code (out ++ l ++ [NEWLINE_BYTE]) err es
  | CommandEvent.Stderr l :: es =>
      outputLoop code out (err ++ l ++ [NEWLINE_BYTE]) es
  | CommandEvent.Error _ :: es => outputLoop code out err es

/-- `Command::output` applied to the full event sequence received on the
channel, starting from empty buffers and `code = None`. -/
def outputDrain (es : List CommandEvent) : Output :=
  outputLoop none [] [] es

/-- The error type of the crate, restricted to the variants this module
produces: wrapped I/O errors and `Error::CurrentExeHasNoParent`
(mod.rs line 125). -/
inductive PError where
  | io (message : String)
  | currentExeHasNoParent
deriving DecidableEq, Repr

/-- The running executable's path as observed through the std path API:
the only observation `relative_command_path` makes is `.parent()` followed
by `.display()`, so the path is modelled by the display string of its
parent directory, `none` when the path has no parent. -/
structure ExePath where
  parentDir : Option String
deriving DecidableEq, Repr

/-- `relative_command_path` (mod.rs lines 119-127): joins the parent
directory of the current executable with the command name — with a `\`
separator and an `.exe` extension on Windows, a `/` separator elsewhere —
and fails with `CurrentExeHasNoParent` when the executable's path has no
parent.  `platform::current_exe()` is external and passed in as a result;
its failure propagates through the `?` operator. -/
def relative_command_path (isWindows : Bool) (currentExe : Except PError ExePath)
    (command : String) : Except PError String :=
  match currentExe with
  | Except.error e => Except.error e
  | Except.ok p =>
    match p.parentDir with
    | some exeDir =>
        Except.ok (if isWindows then exeDir ++ "\\" ++ command ++ ".exe"
                   else exeDir ++ "/" ++ command)
    | none => Except.error PError.currentExeHasNoParent

/-- `Command::new_sidecar` (mod.rs lines 160-162):
`Ok(Self::new(relative_command_path(program.into())?))`. -/
def Command.new_sidecar (isWindows : Bool) (currentExe : Except PError ExePath)
    (program : String) : Except PError Command :=
  (relative_command_path isWindows currentExe program).map Command.new

/-- The caller-facing child handle (mod.rs lines 66-69); the stdin writer
is opaque to the claims, only the pid is kept. -/
structure CommandChild where
  pid : Nat
deriving DecidableEq, Repr

/-- Reader-thread state in the guard system: `idle` before the thread has
acquired the completion guard in read mode (mod.rs line 356), `running`
while it holds the read lock and drains its pipe, `done` after it released
the lock (end of the closure). -/
inductive RState where
  | idle
  | running
  | done
deriving DecidableEq, Repr

/-- Supervisor-thread state: `waiting` until `child.wait()` has returned
and the write lock has been granted, `locked` while holding the guard in
write mode (mod.rs lines 257/271), `finished` after sending the terminal
event and releasing the lock. -/
inductive SState where
  | waiting
  | locked
  | finished
deriving DecidableEq, Repr

/-- State of one spawned command's background activity (mod.rs lines
241-275): the two pipe-reader threads with the events each still has to
send, the supervisor thread, the terminal event the supervisor will send
(`Terminated` on a successful wait, `Error` on a wait failure), and the
log of events delivered on the channel so far, in delivery order. -/
structure Sys where
  out1 : List CommandEvent
  st1 : RState
  out2 : List CommandEvent
  st2 : RState
  sts : SState
  term : CommandEvent
  log : List CommandEvent
deriving DecidableEq, Repr

/-- One scheduler step of the spawned threads.  Readers acquire the guard
in read mode, which the `RwLock` grants whenever no writer holds it;
the supervisor acquires it in write mode, which the `RwLock` grants only
when neither reader currently holds a read lock (an `idle` reader holds
nothing — the source acquires the read lock inside the spawned closure);
events are appended to the channel log in send order. -/
inductive Step : Sys → Sys → Prop where
  | acquire1 (s : Sys) :
      s.st1 = RState.idle → s.sts ≠ SState.locked →
      Step s { s with st1 := RState.running }
  | acquire2 (s : Sys) :
      s.st2 = RState.idle → s.sts ≠ SState.locked →
      Step s { s with st2 := RState.running }
  | emit1 (s : Sys) (e : CommandEvent) (es : List CommandEvent) :
      s.st1 = RState.running → s.out1 = e :: es →
      Step s { s with out1 := es, log := s.log ++ [e] }
  | emit2 (s : Sys) (e : CommandEvent) (es : List CommandEvent) :
      s.st2 = RState.running → s.out2 = e :: es →
      Step s { s with out2 := es, log := s.log ++ [e] }
  | release1 (s : Sys) :
      s.st1 = RState.running → s.out1 = [] →
      Step s { s with st1 := RState.done }
  | release2 (s : Sys) :
      s.st2 = RState.running → s.out2 = [] →
      Step s { s with st2 := RState.done }
  | supAcquire (s : Sys) :
      s.sts = SState.waiting → s.st1 ≠ RState.running → s.st2 ≠ RState.running →
      Step s { s with sts := SState.locked }
  | supEmit (s : Sys) :
      s.sts = SState.locked →
      Step s { s with sts := SState.finished, log := s.log ++ [s.term] }

/-- The terminal event the supervisor sends (mod.rs lines 255-273):
`Terminated` carrying code and signal when `wait()` succeeds, `Error`
carrying the message when it fails. -/
def terminalEvent (waitRes : Except String (Option Int × Option Int)) :
    CommandEvent :=
  match waitRes with
  | Except.ok (c, sg) => CommandEvent.Terminated { code := c, signal := sg }
  | Except.error e => CommandEvent.Error e

/-- The OS-level outcomes `spawn` depends on: the three `pipe()` calls,
the `SharedChild::spawn` call (yielding the pid), the byte streams the
child will write to stdout and stderr, and the result of `wait()`. -/
structure OsEnv where
  pipe1 : Except String Unit
  pipe2 : Except String Unit
  pipe3 : Except String Unit
  spawnRes : Except String Nat
  stdoutBytes : List Nat
  stderrBytes : List Nat
  waitRes : Except String (Option Int × Option Int)
deriving Repr

/-- `Command::spawn` (mod.rs lines 223-284): creates the stdout, stderr
and stdin pipes in that order, issues the OS spawn call, and only on
success creates the channel, starts the two pipe-reader threads and the
supervisor thread (returned here as the initial guard-system state,
whose pending reader events are what each pipe-reader loop will
produce from its stream) and returns the child handle.  Each failing
step returns its error synchronously through `?`. -/
def Command.spawn (_cmd : Command) (os : OsEnv) :
    Except PError (Sys × CommandChild) :=
  match os.pipe1 with
  | Except.error e => Except.error (PError.io e)
  | Except.ok _ =>
    match os.pipe2 with
    | Except.error e => Except.error (PError.io e)
    | Except.ok _ =>
      match os.pipe3 with
      | Except.error e => Except.error (PError.io e)
      | Except.ok _ =>
        match os.spawnRes with
        | Except.error e => Except.error (PError.io e)
        | Except.ok pid =>
            Except.ok
              ({ out1 := pipeReaderLoop CommandEvent.Stdout (stepsOf os.stdoutBytes)
                 st1 := RState.idle
                 out2 := pipeReaderLoop CommandEvent.Stderr (stepsOf os.stderrBytes)
                 st2 := RState.idle
                 sts := SState.waiting
                 term := terminalEvent os.waitRes
                 log := [] },
               { pid := pid })

/-- Initial guard-system state for one spawn delivering the given pending
reader events and terminal event (both reader threads started but neither
holding the guard yet, supervisor waiting, empty log). -/
def sysInit (o1 o2 : List CommandEvent) (t : CommandEvent) : Sys :=
  { out1 := o1
    st1 := RState.idle
    out2 := o2
    st2 := RState.idle
    sts := SState.waiting
    term := t
    log := [] }

/-- Concrete spawn scenario for the ordering race: the child writes one
stdout line (byte 104, `h`) and exits with code 0 before either reader
thread has acquired the guard's read lock. -/
def sys0 : Sys :=
  sysInit [CommandEvent.Stdout [104]] []
    (CommandEvent.Terminated { code := some 0, signal := none })

/-- The state reached from `sys0` by the interleaving: supervisor acquires
the write lock (both readers still idle), sends `Terminated`, releases;
then reader 1 acquires the read lock and sends its pending `Stdout`
event — after `Terminated`. -/
def sysBad : Sys :=
  { out1 := []
    st1 := RState.running
    out2 := []
    st2 := RState.idle
    sts := SState.finished
    term := CommandEvent.Terminated { code := some 0, signal := none }
    log := [CommandEvent.Terminated { code := some 0, signal := none },
            CommandEvent.Stdout [104]] }

/-! ## Helper lemmas -/

/-- A read step on a nonempty stream consumes at least one byte. -/
theorem read_line_pos (b : Nat) (rest : List Nat) :
    1 ≤ (read_line (b :: rest)).1 := by
  simp only [read_line]
  split
  · simp
  · simp

/-- The reader loop on an `Ok(n)` outcome with `n > 0` sends the wrapped
record and continues. -/
theorem pipeReaderLoop_ok_pos (w : List Nat → CommandEvent) (n : Nat)
    (buf : List Nat) (rest : List ReadStep) (h : 1 ≤ n) :
    pipeReaderLoop w (ReadStep.ok n buf :: rest) =
      w buf :: pipeReaderLoop w rest := by
  cases n with
  | zero => omega
  | succ m => rfl

/-- One record-splitting step: on a nonempty stream the record list starts
with the record the line splitter returns, followed by the records of the
remaining stream. -/
theorem splitRecords_step (s : List Nat) (h : s ≠ []) :
    splitRecords s = (read_line s).2 :: splitRecords (s.drop (read_line s).1) := by
  induction s with
  | nil => exact absurd rfl h
  | cons b rest ih =>
    by_cases hb : isSep b
    · simp [splitRecords, read_line, hb]
    · cases rest with
      | nil => simp [splitRecords, read_line, hb]
      | cons c rest2 =>
        have h2 := ih (by simp)
        conv_lhs => rw [splitRecords]
        rw [if_neg hb, h2]
        conv_rhs => rw [read_line]
        rw [if_neg hb]
        simp [List.drop_succ_cons]

/-- Witness that `splitRecords_step` applies at a concrete stream. -/
theorem splitRecords_step_at : splitRecords [104, 10, 105] =
    (read_line [104, 10, 105]).2 ::
      splitRecords ([104, 10, 105].drop (read_line [104, 10, 105]).1) :=
  splitRecords_step [104, 10, 105] (by simp)

/-- `getLast?.getD` peels a cons by moving the head into the default. -/
theorem getLast?_getD_cons {α : Type} (l : List α) (a d : α) :
    ((a :: l).getLast?).getD d = (l.getLast?).getD a := by
  induction l generalizing a d with
  | nil => rfl
  | cons b l2 ih =>
    rw [List.getLast?_cons_cons]
    rw [ih b d, ih b a]

/-- `Command.appendArgs` unfolds one argument at a time. -/
theorem appendArgs_cons (c : Command) (a : String) (xs : List String) :
    c.appendArgs (a :: xs) =
      ({ c with args := c.args ++ [a] } : Command).appendArgs xs := rfl

/-- `Command.appendArgs` appends the given arguments to the existing
argument list and changes nothing else. -/
theorem appendArgs_spec (xs : List String) :
    ∀ c : Command, c.appendArgs xs = { c with args := c.args ++ xs } := by
  induction xs with
  | nil => intro c; simp [Command.appendArgs]
  | cons a xs2 ih =>
    intro c
    rw [appendArgs_cons, ih { c with args := c.args ++ [a] }]
    simp

/-! ## Claim theorems -/

/-- C3: for every `ExitStatus`, `success()` returns true iff the code is
exactly `Some(0)`; an absent code makes `success()` return false. -/
theorem success_iff_code_zero : ∀ c : Option Int,
    ((ExitStatus.mk c).success = true ↔ c = some 0) ∧
    (c = none → (ExitStatus.mk c).success = false) := by
  intro c
  constructor
  · simp [ExitStatus.success]
  · rintro rfl
    rfl

/-- Witness for C3 at `Some(0)` and at an absent code. -/
theorem success_iff_code_zero_witness :
    (ExitStatus.mk (some 0)).success = true ∧
    (ExitStatus.mk none).success = false :=
  ⟨(success_iff_code_zero (some 0)).1.mpr rfl,
   (success_iff_code_zero none).2 rfl⟩

/-- C6 counterexample: two consecutive failing reads make the reader loop
send two `Error` events — the loop does not terminate after the first
error (the `Err` arm of the source loop has no `break`). -/
theorem error_does_not_stop_loop :
    pipeReaderLoop CommandEvent.Stdout
        [ReadStep.ioerr "broken pipe", ReadStep.ioerr "broken pipe"] =
      [CommandEvent.Error "broken pipe", CommandEvent.Error "broken pipe"] := rfl

/-- C6 amended: on an I/O error the reader loop sends one `Error` event
carrying that error's message and then continues with the remaining read
outcomes; it terminates only on a zero-length successful read. -/
theorem error_event_then_continue :
    ∀ (w : List Nat → CommandEvent) (m : String) (steps : List ReadStep),
      pipeReaderLoop w (ReadStep.ioerr m :: steps) =
        CommandEvent.Error m :: pipeReaderLoop w steps := by
  intro w m steps
  rfl

/-- C7: when the OS spawn call fails (the three pipes having been
created), `spawn` returns the failure synchronously as an error result —
no channel, no child handle and no background task system is produced. -/
theorem spawn_failure_synchronous :
    ∀ (cmd : Command) (os : OsEnv) (e : String),
      os.pipe1 = Except.ok () → os.pipe2 = Except.ok () →
      os.pipe3 = Except.ok () → os.spawnRes = Except.error e →
      cmd.spawn os = Except.error (PError.io e) := by
  intro cmd os e h1 h2 h3 h4
  simp [Command.spawn, h1, h2, h3, h4]

/-- Witness for C7: a concrete failing spawn. -/
theorem spawn_failure_synchronous_witness :
    (Command.new "prog").spawn
        { pipe1 := Except.ok (), pipe2 := Except.ok (), pipe3 := Except.ok ()
          spawnRes := Except.error "No such file or directory"
          stdoutBytes := [], stderrBytes := []
          waitRes := Except.ok (some 0, none) } =
      Except.error (PError.io "No such file or directory") :=
  spawn_failure_synchronous _ _ _ rfl rfl rfl rfl

/-- C8: `new_sidecar` rewrites the program to the running executable's
parent directory joined with the name (with `.exe` and a backslash on
Windows) and delegates to `Command::new`; when the executable's path has
no parent it returns the `CurrentExeHasNoParent` error kind. -/
theorem new_sidecar_program_path :
    ∀ (isWin : Bool) (p : ExePath) (name : String),
      (∀ q : String, (Command.new q).program = q) ∧
      (∀ d : String, p.parentDir = some d →
        Command.new_sidecar isWin (Except.ok p) name =
          Except.ok (Command.new
            (if isWin then d ++ "\\" ++ name ++ ".exe" else d ++ "/" ++ name))) ∧
      (p.parentDir = none →
        Command.new_sidecar isWin (Except.ok p) name =
          Except.error PError.currentExeHasNoParent) := by
  intro isWin p name
  refine ⟨fun q => rfl, ?_, ?_⟩
  · intro d hd
    simp [Command.new_sidecar, relative_command_path, hd, Except.map]
  · intro hn
    simp [Command.new_sidecar, relative_command_path, hn, Except.map]

/-- Witness for C8 at a concrete parent directory and at a path without
one. -/
theorem new_sidecar_program_path_witness :
    Command.new_sidecar false (Except.ok { parentDir := some "/usr/bin" }) "tool" =
        Except.ok (Command.new "/usr/bin/tool") ∧
    Command.new_sidecar false (Except.ok { parentDir := none }) "tool" =
        Except.error PError.currentExeHasNoParent := by
  constructor
  · have h := (new_sidecar_program_path false
      { parentDir := some "/usr/bin" } "tool").2.1 "/usr/bin" rfl
    simpa using h
  · exact (new_sidecar_program_path false { parentDir := none } "tool").2.2 rfl

/-- C9: a later `envs` call replaces the entire previously set environment
map, and `envs` leaves `program`, `args`, `env_clear` and `current_dir`
unchanged. -/
theorem envs_replaces_env :
    ∀ (c : Command) (e1 e2 : List (String × String)),
      ((c.envs e1).envs e2).env = e2 ∧
      ((c.envs e1).envs e2).program = c.program ∧
      ((c.envs e1).envs e2).args = c.args ∧
      ((c.envs e1).envs e2).env_clear = c.env_clear ∧
      ((c.envs e1).envs e2).current_dir = c.current_dir := by
  intro c e1 e2
  exact ⟨rfl, rfl, rfl, rfl, rfl⟩

/-- C10: two successive `args` calls append both argument batches, in
order, after the previously held arguments, and leave every other builder
field unchanged. -/
theorem args_appends :
    ∀ (c : Command) (a1 a2 : List String),
      ((c.appendArgs a1).appendArgs a2).args = c.args ++ a1 ++ a2 ∧
      ((c.appendArgs a1).appendArgs a2).program = c.program ∧
      ((c.appendArgs a1).appendArgs a2).env_clear = c.env_clear ∧
      ((c.appendArgs a1).appendArgs a2).env = c.env ∧
      ((c.appendArgs a1).appendArgs a2).current_dir = c.current_dir := by
  intro c a1 a2
  rw [appendArgs_spec a1 c, appendArgs_spec a2 { c with args := c.args ++ a1 }]
  exact ⟨rfl, rfl, rfl, rfl, rfl⟩

/-- C2 counterexample: a stream consisting of a single separator byte
contains one zero-length record, and the reader loop does send it — as an
event with empty payload — because the loop's break test is on the number
of consumed bytes, not on the record length. -/
theorem empty_record_event_sent :
    pipeReaderLoop CommandEvent.Stdout (stepsOf [10]) =
        [CommandEvent.Stdout []] ∧
    splitRecords [10] = [[]] := by
  constructor
  · simp [stepsOf, read_line, isSep, pipeReaderLoop]
  · simp [splitRecords, isSep]

/-- C2 amended: for every byte stream, the reader loop produces exactly one
event per separator-delimited record, in original order, each payload the
record with the separator stripped — zero-length records included; the
loop ends on the zero-length read at end-of-stream. -/
theorem pipe_reader_records :
    ∀ (w : List Nat → CommandEvent) (s : List Nat),
      pipeReaderLoop w (stepsOf s) = (splitRecords s).map w := by
  intro w s
  induction s using stepsOf.induct with
  | case1 => simp [stepsOf, splitRecords, pipeReaderLoop]
  | case2 b rest ih =>
    rw [stepsOf]
    rw [pipeReaderLoop_ok_pos w _ _ _ (read_line_pos b rest)]
    rw [ih]
    rw [splitRecords_step (b :: rest) (by simp)]
    simp

/-- The `output()` drain loop, from arbitrary accumulators: the final code
is the last `Terminated` code (defaulting to the incoming one), and each
stream buffer is the incoming buffer extended by that stream's records,
each followed by a newline byte. -/
theorem outputLoop_spec (es : List CommandEvent) :
    ∀ (code : Option Int) (out err : List Nat),
      outputLoop code out err es =
        { status := { code := (termCodes es).getLast?.getD code }
          stdout := out ++ lineConcat (stdoutPayloads es)
          stderr := err ++ lineConcat (stderrPayloads es) } := by
  induction es with
  | nil =>
    intro code out err
    simp [outputLoop, termCodes, stdoutPayloads, stderrPayloads, lineConcat]
  | cons e es2 ih =>
    intro code out err
    cases e with
    | Stdout l =>
      rw [outputLoop, ih]
      simp [stdoutPayloads, stderrPayloads, termCodes, lineConcat]
    | Stderr l =>
      rw [outputLoop, ih]
      simp [stdoutPayloads, stderrPayloads, termCodes, lineConcat]
    | Error m =>
      rw [outputLoop, ih]
      simp [stdoutPayloads, stderrPayloads, termCodes]
    | Terminated p =>
      rw [outputLoop, ih]
      simp [stdoutPayloads, stderrPayloads, termCodes, getLast?_getD_cons]

/-- Dropping the `Error` events from the drained sequence does not change
what `output()` accumulates. -/
theorem outputLoop_drop_errors (es : List CommandEvent) :
    ∀ (code : Option Int) (out err : List Nat),
      outputLoop code out err (es.filter fun e => !e.isError) =
        outputLoop code out err es := by
  induction es with
  | nil => intro code out err; rfl
  | cons e es2 ih =>
    intro code out err
    cases e with
    | Stdout l => exact ih code (out ++ l ++ [NEWLINE_BYTE]) err
    | Stderr l => exact ih code out (err ++ l ++ [NEWLINE_BYTE])
    | Error m => exact ih code out err
    | Terminated p => exact ih p.code out err

/-- C4: for every drained event sequence, `output()` returns stdout equal
to the concatenation of the `Stdout` payloads each followed by one
inserted newline byte, stderr built the same way from `Stderr` payloads,
and the code taken from the (last) `Terminated` event; `Error` events are
dropped without altering the result. -/
theorem output_accumulation :
    ∀ es : List CommandEvent,
      outputDrain es =
        { status := { code := lastTermCode es }
          stdout := lineConcat (stdoutPayloads es)
          stderr := lineConcat (stderrPayloads es) } ∧
      outputDrain (es.filter fun e => !e.isError) = outputDrain es := by
  intro es
  constructor
  · rw [outputDrain, outputLoop_spec]
    simp [lastTermCode]
  · rw [outputDrain, outputDrain, outputLoop_drop_errors]

/-- The `status()` drain loop, from an arbitrary retained code: the result
is the last `Terminated` code, defaulting to the incoming one. -/
theorem statusLoop_spec (es : List CommandEvent) :
    ∀ code : Option Int,
      statusLoop code es = { code := (termCodes es).getLast?.getD code } := by
  induction es with
  | nil => intro code; rfl
  | cons e es2 ih =>
    intro code
    cases e with
    | Stdout l => rw [statusLoop, ih]; simp [termCodes]
    | Stderr l => rw [statusLoop, ih]; simp [termCodes]
    | Error m => rw [statusLoop, ih]; simp [termCodes]
    | Terminated p =>
      rw [statusLoop, ih]
      simp [termCodes, getLast?_getD_cons]

/-- Discarding everything but the `Terminated` events does not change what
`status()` retains. -/
theorem statusLoop_only_terminated (es : List CommandEvent) :
    ∀ code : Option Int,
      statusLoop code (es.filter CommandEvent.isTerminated) =
        statusLoop code es := by
  induction es with
  | nil => intro code; rfl
  | cons e es2 ih =>
    intro code
    cases e with
    | Stdout l => simp [List.filter, CommandEvent.isTerminated, statusLoop, ih]
    | Stderr l => simp [List.filter, CommandEvent.isTerminated, statusLoop, ih]
    | Error m => simp [List.filter, CommandEvent.isTerminated, statusLoop, ih]
    | Terminated p =>
      simp [List.filter, CommandEvent.isTerminated, statusLoop, ih]

/-- C5: for every drained event sequence, `status()` returns the code of
the `Terminated` event when one occurs (`none` when the channel closes
without one), and all `Stdout`, `Stderr` and `Error` events are
discarded. -/
theorem status_code_retention :
    ∀ es : List CommandEvent,
      (statusDrain es).code = lastTermCode es ∧
      statusDrain (es.filter CommandEvent.isTerminated) = statusDrain es := by
  intro es
  constructor
  · rw [statusDrain, statusLoop_spec]
    simp [lastTermCode]
  · rw [statusDrain, statusDrain, statusLoop_only_terminated]

/-- C1: the completion guard does not make `Terminated` the last event.
A concrete spawn — child writes one stdout line (`h`), exits 0 — reaches,
under a legal scheduling (supervisor wins the guard's write lock before
either reader thread has acquired its read lock), a state whose channel
log has a `Stdout` event delivered after `Terminated`.  The read lock is
only acquired inside each spawned reader thread, so nothing orders those
acquisitions before the supervisor's write acquisition. -/
theorem terminated_not_last_race :
    (Command.new "prog").spawn
        { pipe1 := Except.ok (), pipe2 := Except.ok (), pipe3 := Except.ok ()
          spawnRes := Except.ok 42
          stdoutBytes := [104, 10], stderrBytes := []
          waitRes := Except.ok (some 0, none) } =
      Except.ok (sys0, { pid := 42 }) ∧
    Relation.ReflTransGen Step sys0 sysBad ∧
    sysBad.log = [CommandEvent.Terminated { code := some 0, signal := none },
                  CommandEvent.Stdout [104]] := by
  refine ⟨?_, ?_, rfl⟩
  · simp only [Command.spawn, sys0, sysInit, terminalEvent]
    simp [stepsOf, read_line, isSep, pipeReaderLoop]
  · exact Relation.ReflTransGen.head
      (Step.supAcquire sys0 rfl (by decide) (by decide))
      (Relation.ReflTransGen.head (Step.supEmit _ rfl)
        (Relation.ReflTransGen.head (Step.acquire1 _ rfl (by decide))
          (Relation.ReflTransGen.head
            (Step.emit1 _ (CommandEvent.Stdout [104]) [] rfl rfl)
            Relation.ReflTransGen.refl)))

end Shell
